import Mathlib

/-!
# Verification of libtorrent core subsystems

A shallow embedding of the core subsystems of the libtorrent source tree
(transfer list, resource manager, tracker list, HTTP/UDP tracker transports,
socket stream) together with theorems settling the specification claims.

Machine integers are modelled as `Nat` with explicit reduction modulo
`2 ^ w` where overflow or truncation matters.  Fallible code returns
`Except String`.  Callback slot invocations are recorded as explicit event
lists.
-/

namespace Torrent

/-! ## SocketStream (src/net/socket_stream.cc)

The underlying `read_stream` / `write_stream` primitives return an integer:
negative = kernel error, zero = peer closed, positive = bytes transferred.
The `*_throws` variants translate this outcome plus the current `errno`
into a result.  Exceptions are modelled as constructors of `StreamResult`.
-/

/-- Outcome of `read_stream_throws` / `write_stream_throws`: either a byte
count is returned, or one of the tagged exceptions is thrown. -/
inductive StreamResult where
  | bytes (n : Nat)
  | closeConnection
  | blockedConnection
  | connectionError (errno : Nat)
  deriving DecidableEq, Repr

/-- Errno constants (Linux numeric values). `EWOULDBLOCK = EAGAIN` on Linux. -/
def EAGAIN : Nat := 11
def EWOULDBLOCK : Nat := 11
def EINTR : Nat := 4
def EPIPE : Nat := 32
def ECONNABORTED : Nat := 103
def ECONNRESET : Nat := 104
def ENOBUFS : Nat := 105
def EINVAL : Nat := 22

/-- Modelled from the spec: `rak::error_number::is_blocked_momentary`
(`error_number.h` is not part of the excerpt).  Momentary blocking errnos
are the classic `EAGAIN`/`EWOULDBLOCK` per spec section 4.1. -/
def is_blocked_momentary (e : Nat) : Bool :=
  e == EAGAIN || e == EWOULDBLOCK

/-- Modelled from the spec: `rak::error_number::is_closed`; the
peer-initiated-close / `EPIPE`-class errnos per spec section 4.1. -/
def is_closed (e : Nat) : Bool :=
  e == ECONNRESET || e == ECONNABORTED || e == EPIPE

/-- Modelled from the spec: `rak::error_number::is_blocked_prolonged`; the
`ENOBUFS`-class congestion errnos per spec section 4.1. -/
def is_blocked_prolonged (e : Nat) : Bool :=
  e == ENOBUFS

/-- `SocketStream::read_stream_throws`, given the return value `r` of the
underlying `read_stream` call and the current `errno`.  Mirrors the
dispatch order of the source: `r = 0` throws `close_connection`; `r < 0`
consults the errno classification (momentary first, then closed, then
prolonged, otherwise `connection_error(errno)`); `r > 0` returns `r`.
The function performs a single dispatch: no internal retry. -/
def read_stream_throws (r : Int) (errno : Nat) : StreamResult :=
  if r = 0 then
    StreamResult.closeConnection
  else if r < 0 then
    if is_blocked_momentary errno then StreamResult.bytes 0
    else if is_closed errno then StreamResult.closeConnection
    else if is_blocked_prolonged errno then StreamResult.blockedConnection
    else StreamResult.connectionError errno
  else
    StreamResult.bytes r.toNat

/-- `SocketStream::write_stream_throws`; byte-for-byte the same dispatch
as `read_stream_throws` in the source. -/
def write_stream_throws (r : Int) (errno : Nat) : StreamResult :=
  if r = 0 then
    StreamResult.closeConnection
  else if r < 0 then
    if is_blocked_momentary errno then StreamResult.bytes 0
    else if is_closed errno then StreamResult.closeConnection
    else if is_blocked_prolonged errno then StreamResult.blockedConnection
    else StreamResult.connectionError errno
  else
    StreamResult.bytes r.toNat

/-! ## UDP tracker transport (src/tracker/tracker_udp.cc)

`TrackerUdp::prepare_announce_input` serialises the announce request into
the write buffer.  The `WriteBuffer` (`protocol_buffer.h` is not part of
the excerpt) is modelled as a byte list; per the spec all multi-byte
integers are written in network byte order (big-endian). -/

/-- Modelled from the spec: big-endian serialisation of `v mod 256^k` into
`k` bytes, the behaviour of the buffer `write_16`/`write_32`/`write_64`
primitives ("all multi-byte integers network byte order"). -/
def beBytes : Nat → Nat → List Nat
  | 0, _ => []
  | k + 1, v => beBytes k (v / 256) ++ [v % 256]

theorem beBytes_length (k v : Nat) : (beBytes k v).length = k := by
  induction k generalizing v with
  | zero => rfl
  | succ k ih => simp [beBytes, ih]

/-- The inputs read by `TrackerUdp::prepare_announce_input`: the cached
connection id from the connect phase, the freshly drawn transaction id,
the `DownloadInfo` fields, the local address (as the four network-order
bytes written by `write_32_n`; all zero for a wildcard bind), and the
`TrackerList` key/numwant plus the listen port. -/
structure AnnounceInput where
  connection_id : Nat
  transaction_id : Nat
  info_hash : List Nat
  peer_id : List Nat
  completed_adjusted : Nat
  download_left : Nat
  uploaded_adjusted : Nat
  send_state : Nat
  ip_bytes : List Nat
  key : Nat
  numwant : Nat
  port : Nat
  deriving DecidableEq, Repr

/-- `TrackerUdp::prepare_announce_input`: the exact write sequence of the
source (`write_64` connection id, `write_32` action = 1, `write_32`
transaction id, the 20-byte info hash and peer id ranges, three
`write_64` counters, `write_32` event, `write_32_n` local address,
`write_32` key, `write_32` numwant, `write_16` port), followed by the
source's verification that the buffer is exactly 98 bytes, which throws
`internal_error` otherwise. -/
def prepare_announce_input (a : AnnounceInput) : Except String (List Nat) :=
  let buf :=
    beBytes 8 a.connection_id ++ beBytes 4 1 ++ beBytes 4 a.transaction_id ++
      a.info_hash ++ a.peer_id ++ beBytes 8 a.completed_adjusted ++
      beBytes 8 a.download_left ++ beBytes 8 a.uploaded_adjusted ++
      beBytes 4 a.send_state ++ a.ip_bytes ++ beBytes 4 a.key ++
      beBytes 4 a.numwant ++ beBytes 2 a.port
  if buf.length ≠ 98 then
    Except.error "TrackerUdp::prepare_announce_input() ended up with the wrong size"
  else
    Except.ok buf

/-! ## Generic list helper lemmas -/

theorem drop_append_of_length {α : Type} (a b : List α) (n : Nat)
    (h : a.length = n) : (a ++ b).drop n = b := by
  subst h
  exact List.drop_left a b

theorem take_append_of_length {α : Type} (a b : List α) (n : Nat)
    (h : a.length = n) : (a ++ b).take n = a := by
  subst h
  exact List.take_left a b

/-! ## HTTP tracker transport (src/tracker/tracker_http.cc)

`TrackerHttp::process_success` absorbs the fields of a non-failure
bencoded announce response into the tracker state.  Only the state
mutations are modelled here; the subsequent peer-list construction and
the final callback do not touch the interval or scrape fields. -/

/-- Modelled from the spec: the default announce intervals
(`default_normal_interval` / `default_min_interval` live in `tracker.h`,
which is not part of the excerpt).  The claims depend only on the two
constants being the respective defaults, not on their numeric values. -/
def default_normal_interval : Int := 1800

/-- Modelled from the spec: see `default_normal_interval`. -/
def default_min_interval : Int := 600

/-- The tracker-state fields written by `TrackerHttp::process_success`. -/
structure TrackerHttpState where
  normal_interval : Int
  min_interval : Int
  tracker_id : String
  scrape_complete : Int
  scrape_incomplete : Int
  scrape_downloaded : Int
  scrape_time_last : Nat
  deriving DecidableEq, Repr

/-- The announce-response dictionary keys consulted by
`TrackerHttp::process_success`: `none` models an absent key (or a key of
the wrong bencode type, for which `has_key_value` / `has_key_string` is
false). -/
structure TrackerResponse where
  interval : Option Int
  min_interval : Option Int
  tracker_id : Option String
  complete : Option Int
  incomplete : Option Int
  downloaded : Option Int
  deriving DecidableEq, Repr

/-- The state-mutation prefix of `TrackerHttp::process_success`, statement
by statement from the source.  Note the source's `else` branch for an
absent `min interval` key calls `set_normal_interval(default_min_interval)`
(sic), not `set_min_interval`.  `Tracker::set_normal_interval` and
`Tracker::set_min_interval` (from `tracker.h`, not part of the excerpt)
are modelled from the spec as plain field assignments.  `now` stands for
`cachedTime.seconds()`. -/
def process_success_state (o : TrackerResponse) (now : Nat)
    (st : TrackerHttpState) : TrackerHttpState :=
  let st :=
    match o.interval with
    | some v => { st with normal_interval := v }
    | none => { st with normal_interval := default_normal_interval }
  let st :=
    match o.min_interval with
    | some v => { st with min_interval := v }
    | none => { st with normal_interval := default_min_interval }
  let st :=
    match o.tracker_id with
    | some s => { st with tracker_id := s }
    | none => st
  let st :=
    match o.complete, o.incomplete with
    | some c, some i =>
        { st with scrape_complete := max c 0, scrape_incomplete := max i 0,
                  scrape_time_last := now }
    | _, _ => st
  match o.downloaded with
  | some d => { st with scrape_downloaded := max d 0 }
  | none => st

/-! ## TrackerList (src/torrent/tracker_list.cc)

`TrackerList::find_next_to_request` walks the tracker sequence from a
given iterator.  The list argument below is the suffix of the tracker
sequence starting at that iterator; the fields are the per-tracker
quantities the function consults.  `can_request_state`,
`failed_time_next` and `success_time_next` are `Tracker` accessors from
`tracker.h` (not part of the excerpt) and are therefore opaque inputs
here. -/

/-- The per-tracker data consulted by `find_next_to_request`. -/
structure Trk where
  can_request_state : Bool
  failed_counter : Nat
  failed_time_next : Nat
  success_time_next : Nat
  deriving DecidableEq, Repr

/-- A tracker that is requestable and not failing (the claim calls these
non-failing, or healthy, trackers). -/
def healthy (t : Trk) : Bool :=
  t.can_request_state && t.failed_counter == 0

/-- The `while (++itr != end())` loop of `find_next_to_request`, carrying
the current `preferred` tracker: skip non-requestable trackers; a failing
tracker with strictly smaller `failed_time_next` becomes preferred; the
first non-failing tracker supersedes `preferred` exactly when its
`success_time_next` is below the preferred `failed_time_next`, and the
loop breaks there. -/
def fnr_loop : List Trk → Trk → Trk
  | [], preferred => preferred
  | t :: ts, preferred =>
    if !t.can_request_state then
      fnr_loop ts preferred
    else if t.failed_counter ≠ 0 then
      fnr_loop ts
        (if t.failed_time_next < preferred.failed_time_next then t else preferred)
    else
      if t.success_time_next < preferred.failed_time_next then t else preferred

/-- `TrackerList::find_next_to_request`, on the suffix starting at the
iterator argument: find the first requestable tracker; return it outright
if it has `failed_counter == 0` (also `none` when there is none at all),
otherwise run the scan loop with it as the initial preferred tracker. -/
def find_next_to_request : List Trk → Option Trk
  | [] => none
  | t :: ts =>
    if t.can_request_state then
      if t.failed_counter = 0 then some t else some (fnr_loop ts t)
    else
      find_next_to_request ts

/-- Written from the claim's words: starting from the first requestable
tracker taken as tentative choice, the tentative choice is the failing
requestable tracker with the smallest `failed_time_next` among those
encountered (earliest wins ties, per the source's strict comparison)
before a non-failing requestable tracker appears. -/
def claim_tentative (preferred : Trk) (ts : List Trk) : Trk :=
  ((ts.takeWhile (fun t => !healthy t)).filter
      (fun t => t.can_request_state)).foldl
    (fun b c => if c.failed_time_next < b.failed_time_next then c else b)
    preferred

/-- Written from the claim's words: return the first requestable tracker
when it is non-failing; otherwise tentatively select among failing
requestable trackers by smallest `failed_time_next`, and let the first
non-failing requestable tracker encountered later supersede the tentative
choice exactly when its `success_time_next` is less than the tentative
choice's `failed_time_next`. -/
def claim_next_to_request : List Trk → Option Trk
  | [] => none
  | t :: ts =>
    if t.can_request_state then
      if t.failed_counter = 0 then some t
      else
        match ts.find? healthy with
        | none => some (claim_tentative t ts)
        | some h =>
            some (if h.success_time_next < (claim_tentative t ts).failed_time_next
              then h else claim_tentative t ts)
    else
      claim_next_to_request ts

/-! ## TransferList (src/torrent/data/transfer_list.cc)

The in-flight piece set and the block-failure resolver.  The callback
slots `m_slot_queued` / `m_slot_completed` / `m_slot_canceled` /
`m_slot_corrupt` are recorded as explicit events; `Block::do_all_failed`
invocations are likewise recorded.  `PeerInfo*` identities are `Nat`. -/

/-- The chunk buffer holding the bytes of one piece.  Modelled from the
spec: "a chunk store capable of buffer comparison and copy"
(`data/chunk.h` is not part of the excerpt). -/
abbrev Chunk := List Nat

/-- `Chunk::compare_buffer(buffer, offset, length)`: the chunk bytes at
`[offset, offset + length)` equal `buffer`.  Modelled from the spec (see
`Chunk`). -/
def compare_buffer (ch : Chunk) (buffer : List Nat) (offset length : Nat) : Bool :=
  (ch.drop offset).take length == buffer

/-- `Chunk::to_buffer`: copy the chunk bytes at
`[offset, offset + length)` out into a fresh buffer.  Modelled from the
spec (see `Chunk`). -/
def to_buffer (ch : Chunk) (offset length : Nat) : List Nat :=
  (ch.drop offset).take length

/-- `Chunk::from_buffer`: overwrite the chunk bytes at
`[offset, offset + length)` with the buffer contents.  Modelled from the
spec (see `Chunk`). -/
def from_buffer (ch : Chunk) (buffer : List Nat) (offset length : Nat) : Chunk :=
  ch.take offset ++ buffer.take length ++ ch.drop (offset + length)

/-- The `~uint32_t()` sentinel meaning "no failed-list entry" in
`BlockTransfer::failed_index`. -/
def failed_index_none : Nat := 4294967295

/-- `Piece`: (piece index, byte offset within the piece, length). -/
structure Piece where
  index : Nat
  offset : Nat
  length : Nat
  deriving DecidableEq, Repr

/-- The `BlockTransfer` fields consulted by the transfer list: the peer
identity and which failed-list entry the transfer's bytes matched
(`failed_index_none` when unset). -/
structure BlockTransfer where
  peer_info : Nat
  failed_index : Nat
  deriving DecidableEq, Repr

/-- Modelled from the spec: `BlockFailed`
(`torrent/data/block_failed.h` is not part of the excerpt): the per-block
list of `(buffer, reference count)` pairs together with the index of the
`current` entry (the one whose bytes sit in the chunk buffer);
`set_current(iterator)` stores the iterator's index. -/
structure BlockFailed where
  entries : List (List Nat × Nat)
  current : Nat
  deriving DecidableEq, Repr

/-- Modelled from the spec: `BlockFailed::max_element` — the first entry
holding the maximal reference count (`std::max_element` keeps the
earliest among ties), as an index. -/
def first_max_idx (l : List (List Nat × Nat)) : Nat :=
  (l.enum.foldl
    (fun (b : Nat × Nat) (p : Nat × (List Nat × Nat)) =>
      if p.2.2 > b.2 then (p.1, p.2.2) else b)
    (0, 0)).1

/-- Modelled from the spec: `BlockFailed::reverse_max_element` — the last
entry holding the maximal reference count ("ties broken toward
more-recent insertion"), as an index. -/
def last_max_idx (l : List (List Nat × Nat)) : Nat :=
  (l.enum.foldl
    (fun (b : Nat × Nat) (p : Nat × (List Nat × Nat)) =>
      if p.2.2 ≥ b.2 then (p.1, p.2.2) else b)
    (0, 0)).1

/-- The `Block` fields consulted by the transfer list: the piece
descriptor, the finished flag, the in-flight transfers, the index of the
leader transfer within `transfers`, and the optional failed list
(allocated on first failure). -/
structure Blk where
  piece : Piece
  finished : Bool
  transfers : List BlockTransfer
  leader : Nat
  failed_list : Option BlockFailed
  deriving DecidableEq, Repr

/-- `BlockList`: ordered blocks of one piece, with the verification
failure count and the retry round. -/
structure BlockList where
  index : Nat
  blocks : List Blk
  failed : Nat
  attempt : Nat
  deriving DecidableEq, Repr

/-- Callback-slot invocations and `do_all_failed` invocations recorded by
the transfer-list operations. -/
inductive Event where
  | queued (index : Nat)
  | completed (index : Nat)
  | canceled (index : Nat)
  | corrupt (peer : Nat)
  | do_all_failed (index : Nat)
  deriving DecidableEq, Repr

/-- `TransferList`: the in-flight `BlockList`s plus the time-stamped
completed-piece log and the success/failure counters. -/
structure TransferList where
  lists : List BlockList
  completedList : List (Nat × Nat)
  succeededCount : Nat
  failedCount : Nat
  deriving DecidableEq, Repr

/-- `TransferList::find`: the first block list whose `index()` equals the
argument. -/
def TransferList.find (tl : TransferList) (index : Nat) : Option BlockList :=
  tl.lists.find? (fun b => index == b.index)

/-- Update the leader transfer's `failed_index`
(`block.leader()->set_failed_index(...)`); the leader is an element of
the block's transfer list, so the update is visible there. -/
def set_leader_failed_index (ts : List BlockTransfer) (leader idx : Nat) :
    List BlockTransfer :=
  ts.set leader { peer_info := (ts.getD leader ⟨0, 0⟩).peer_info,
                  failed_index := idx }

/-- The loop body of `TransferList::update_failed` for one block: ensure
a failed list exists (`new BlockFailed()` for a null one), look for an
entry whose stored buffer equals the chunk bytes of this block's piece;
if none matches, append a fresh `(buffer, 1)` entry and point at it;
otherwise compute the `promoted` increment — the matched entry's count
equals `max_element`'s count while `max_element` and
`reverse_max_element` differ — and bump the matched entry's count.
Finally record the entry as `current` and as the leader's
`failed_index`.  Returns the updated block and the `promoted`
increment. -/
def update_failed_block (ch : Chunk) (b : Blk) : Blk × Nat :=
  let fl := b.failed_list.getD ⟨[], 0⟩
  match fl.entries.findIdx?
      (fun e => compare_buffer ch e.1 b.piece.offset b.piece.length) with
  | none =>
      let buffer := to_buffer ch b.piece.offset b.piece.length
      let entries := fl.entries ++ [(buffer, 1)]
      let idx := entries.length - 1
      ({ b with failed_list := some ⟨entries, idx⟩,
                transfers := set_leader_failed_index b.transfers b.leader idx },
       0)
  | some i =>
      let mx := first_max_idx fl.entries
      let lmx := last_max_idx fl.entries
      let e := fl.entries.getD i ([], 0)
      let inc :=
        if (fl.entries.getD mx ([], 0)).2 = e.2 ∧ mx ≠ lmx then 1 else 0
      ({ b with failed_list := some ⟨fl.entries.set i (e.1, e.2 + 1), i⟩,
                transfers := set_leader_failed_index b.transfers b.leader i },
       inc)

/-- `TransferList::update_failed`: increment the block list's failure
count, run `update_failed_block` over every block and sum the `promoted`
increments. -/
def update_failed (bl : BlockList) (ch : Chunk) : BlockList × Nat :=
  let res := bl.blocks.map (update_failed_block ch)
  ({ bl with blocks := res.map Prod.fst, failed := bl.failed + 1 },
   (res.map Prod.snd).sum)

/-- The loop body of `TransferList::retry_most_popular` for one block:
`reverse_max_element` equal to `rend` (an empty failed list) throws
`internal_error`; when the most popular entry is already `current` the
chunk is left alone; otherwise its buffer is copied back into the chunk
and it becomes `current`. -/
def retry_block (ch : Chunk) (b : Blk) : Except String (Blk × Chunk) :=
  let fl := b.failed_list.getD ⟨[], 0⟩
  if fl.entries.isEmpty then
    Except.error "TransferList::retry_most_popular(...) No failed list entry found."
  else
    let lmx := last_max_idx fl.entries
    if lmx = fl.current then
      Except.ok (b, ch)
    else
      Except.ok
        ({ b with failed_list := some ⟨fl.entries, lmx⟩ },
         from_buffer ch (fl.entries.getD lmx ([], 0)).1 b.piece.offset
           b.piece.length)

/-- Fold `retry_block` over the blocks in order, threading the chunk. -/
def retry_blocks (ch : Chunk) : List Blk → Except String (List Blk × Chunk)
  | [] => Except.ok ([], ch)
  | b :: bs => do
      let (b1, ch1) ← retry_block ch b
      let (bs1, ch2) ← retry_blocks ch1 bs
      Except.ok (b1 :: bs1, ch2)

/-- `TransferList::retry_most_popular`: restore the most popular variant
of every block into the chunk, then emit `m_slot_completed(index)` so the
chunk is re-hashed. -/
def retry_most_popular (bl : BlockList) (ch : Chunk) :
    Except String (BlockList × Chunk × List Event) := do
  let (bs, ch1) ← retry_blocks ch bl.blocks
  Except.ok ({ bl with blocks := bs }, ch1, [Event.completed bl.index])

/-- Modelled from the spec: `BlockList::do_all_failed` — "mark every
block for redownload and return the piece to the downloader" (spec
section 4.2 step 5; `block_list.h` is not part of the excerpt).  The
finished marks are cleared; the invocation itself is recorded as an
event by the caller, which is all any claim consults. -/
def BlockList.run_do_all_failed (bl : BlockList) : BlockList :=
  { bl with blocks := bl.blocks.map (fun b => { b with finished := false }) }

/-- Replace the block list stored under `index` (the source mutates it in
place through the found iterator). -/
def replace_list (ls : List BlockList) (index : Nat) (bl : BlockList) :
    List BlockList :=
  ls.map (fun b => if index == b.index then bl else b)

/-- `TransferList::hash_failed`: unknown index or an unfinished block
throws `internal_error` (before any mutation); otherwise bump
`m_failedCount` and, on the first failure (`attempt == 0`), run
`update_failed` and take the retry branch whenever
`promoted > 0 || promoted < size` — setting `attempt = 1` and running
`retry_most_popular` — and otherwise (as on every later failure round)
invoke `do_all_failed` on the block list. -/
def hash_failed (tl : TransferList) (index : Nat) (ch : Chunk) :
    Except String (TransferList × Chunk × List Event) :=
  match tl.find index with
  | none => Except.error "TransferList::hash_failed(...) Could not find index."
  | some bl =>
    if bl.blocks.countP (fun b => b.finished) ≠ bl.blocks.length then
      Except.error "TransferList::hash_failed(...) Finished blocks does not match size."
    else
      let tl1 : TransferList := { tl with failedCount := tl.failedCount + 1 }
      if bl.attempt = 0 then
        let uf := update_failed bl ch
        if uf.2 > 0 || uf.2 < uf.1.blocks.length then do
          let (bl2, ch1, evs) ← retry_most_popular { uf.1 with attempt := 1 } ch
          Except.ok ({ tl1 with lists := replace_list tl1.lists index bl2 },
            ch1, evs)
        else
          Except.ok
            ({ tl1 with
                lists := replace_list tl1.lists index uf.1.run_do_all_failed },
             ch, [Event.do_all_failed index])
      else
        Except.ok
          ({ tl1 with
              lists := replace_list tl1.lists index bl.run_do_all_failed },
           ch, [Event.do_all_failed index])

/-- The index recorded by `set_current` in `mark_failed_peers`: the first
failed-list entry whose buffer equals the now-known-good chunk bytes of
this block's piece (`List.findIdx` yields the entry count — the
end-iterator index — when nothing matches, exactly as the source's
`std::find_if` result does). -/
def block_current_idx (ch : Chunk) (b : Blk) : Nat :=
  (b.failed_list.getD ⟨[], 0⟩).entries.findIdx
    (fun e => compare_buffer ch e.1 b.piece.offset b.piece.length)

/-- The peers inserted into `badPeers` by `mark_failed_peers`, in
traversal order with duplicates: every transfer of every block whose
`failed_index` is set and differs from the block's new `current`. -/
def bad_peers (bl : BlockList) (ch : Chunk) : List Nat :=
  bl.blocks.flatMap (fun b =>
    (b.transfers.filter (fun t =>
        t.failed_index != block_current_idx ch b &&
          t.failed_index != failed_index_none)).map
      (fun t => t.peer_info))

/-- `TransferList::mark_failed_peers`: set each block's `current` to the
entry matching the good chunk bytes, collect the offending peers into the
`badPeers` set and emit `m_slot_corrupt` once per member.  `std::set`
iteration order (pointer order) is unspecified; it is modelled as
first-insertion order, every claim concerning only the multiset of
emissions. -/
def mark_failed_peers (bl : BlockList) (ch : Chunk) : List Event :=
  (bad_peers bl ch).dedup.map Event.corrupt

/-- Microseconds in 60 minutes (`utils::timer::from_minutes(60)`). -/
def usec_60min : Nat := 3600000000

/-- Microseconds in 30 minutes (`utils::timer::from_minutes(30)`). -/
def usec_30min : Nat := 1800000000

/-- `TransferList::hash_succeeded`: validate block completeness (the
source dereferences the `find` result without an end check; the
absent-index case is modelled as an error and is unreachable under the
claims' hypotheses), run `mark_failed_peers` when the block list has
recorded failures, append `(now, index)` to the completed log, prune the
log prefix strictly older than 30 minutes whenever the front entry is
older than 60 minutes, bump `m_succeededCount` and erase the block
list.  `now` is `utils::timer::current().usec()`; the timer comparisons
on `Nat` agree with the source's signed 64-bit arithmetic since all
stored stamps are non-negative. -/
def hash_succeeded (tl : TransferList) (index : Nat) (ch : Chunk) (now : Nat) :
    Except String (TransferList × List Event) :=
  match tl.find index with
  | none => Except.error "TransferList::hash_succeeded(...) invalid iterator."
  | some bl =>
    if bl.blocks.countP (fun b => b.finished) ≠ bl.blocks.length then
      Except.error "TransferList::hash_succeeded(...) Finished blocks does not match size."
    else
      let evs := if bl.failed ≠ 0 then mark_failed_peers bl ch else []
      let completed := tl.completedList ++ [(now, index)]
      let completed :=
        if (completed.headD (0, 0)).1 + usec_60min < now then
          completed.dropWhile (fun v => !(now - usec_30min ≤ v.1))
        else completed
      Except.ok
        ({ tl with lists := tl.lists.eraseP (fun b => index == b.index),
                   completedList := completed,
                   succeededCount := tl.succeededCount + 1 },
         evs)

/-- Written from the claim's words (C3): peer `p` has some transfer, on
some block, whose `failed_index` is set (not the none sentinel) and
differs from the failed-list entry matching the now-known-good chunk
bytes of that block. -/
def bad_peer_claim (bl : BlockList) (ch : Chunk) (p : Nat) : Bool :=
  bl.blocks.any (fun b => b.transfers.any (fun t =>
    t.peer_info == p && t.failed_index != failed_index_none &&
      t.failed_index != block_current_idx ch b))

/-! ## ResourceManager (src/torrent/download/resource_manager.cc)

The entry vector and the per-group `first`/`last` boundary pointers.  The
pointers into the contiguous entry buffer are modelled as buffer indices
(`none` = `nullptr`; `&*end()` = the entry count).  The choke queues and
`choke_queue::move_connections` concern the peers of a download and are
outside everything the claims consult. -/

/-- `resource_manager_entry`: the download identity, its group and its
priority. -/
structure RMEntry where
  download : Nat
  group : Nat
  priority : Nat
  deriving DecidableEq, Repr

/-- The `choke_group` fields consulted by the resource manager: the
unique name and the `first`/`last` pointers delimiting the group's slice
of the entry vector.  Modelled from the spec where `choke_group.h` is
absent: a freshly constructed group's pointers are null, and
`inc_iterators` / `dec_iterators` shift both stored indices by one. -/
structure choke_group where
  name : String
  first : Option Nat
  last : Option Nat
  deriving DecidableEq, Repr

/-- Pointer `+ 1` on a stored buffer index (never applied to null in any
trace considered here; on null it is the identity). -/
def ptr_inc (p : Option Nat) : Option Nat :=
  p.map (· + 1)

/-- Pointer `- 1` on a stored buffer index (see `ptr_inc`). -/
def ptr_dec (p : Option Nat) : Option Nat :=
  p.map (· - 1)

/-- The `ResourceManager` state: the entry vector (`base_type`) and the
choke groups (`choke_base_type`). -/
structure ResourceManager where
  entries : List RMEntry
  groups : List choke_group
  deriving DecidableEq, Repr

/-- Insert at position `n` of a list (`std::vector::insert`). -/
def insertAt {α : Type} (n : Nat) (a : α) (l : List α) : List α :=
  l.take n ++ a :: l.drop n

/-- `ResourceManager::find_group_end`: the index of the first entry whose
group exceeds `group` (the entry count when there is none). -/
def find_group_end (entries : List RMEntry) (group : Nat) : Nat :=
  entries.findIdx (fun v => group < v.group)

/-- The scan of `ResourceManager::update_group_iterators`: for each group
in order, `first` is the current scan position and `last` is the first
position at or after it whose entry belongs to a later group. -/
def ugi_go (entries : List RMEntry) : Nat → Nat → List choke_group →
    List choke_group
  | _, _, [] => []
  | gi, cur, g :: gs =>
      let nxt := cur + (entries.drop cur).findIdx (fun v => gi < v.group)
      { g with first := some cur, last := some nxt } ::
        ugi_go entries (gi + 1) nxt gs

/-- `ResourceManager::update_group_iterators`: full rescan of every
group's boundary pointers. -/
def update_group_iterators (rm : ResourceManager) : ResourceManager :=
  { rm with groups := ugi_go rm.entries 0 0 rm.groups }

/-- The scan of `ResourceManager::validate_group_iterators` on a
non-empty entry vector. -/
def vgi_go (entries : List RMEntry) : Nat → Nat → List choke_group → Bool
  | _, _, [] => true
  | gi, cur, g :: gs =>
      let nxt := cur + (entries.drop cur).findIdx (fun v => gi < v.group)
      g.first == some cur && g.last == some nxt &&
        vgi_go entries (gi + 1) nxt gs

/-- `ResourceManager::validate_group_iterators` (run by `receive_tick`):
`true` when no `internal_error` is thrown — on an empty entry vector all
group pointers must be null, otherwise every group's `first`/`last` must
match the rescan. -/
def validate_group_iterators (rm : ResourceManager) : Bool :=
  if rm.entries.isEmpty then
    rm.groups.all (fun g => g.first == none && g.last == none)
  else
    vgi_go rm.entries 0 0 rm.groups

/-- `ResourceManager::push_group`: reject an empty or duplicate name;
append a fresh group, pointing its `first`/`last` at `&*end()` when the
entry vector is non-empty (the constructor's null pointers survive when
it is empty).  The heuristics and callback slots installed on the new
group's queues do not touch the modelled state. -/
def push_group (rm : ResourceManager) (name : String) :
    Except String ResourceManager :=
  if name = "" || rm.groups.any (fun g => g.name == name) then
    Except.error "Duplicate name for choke group."
  else
    Except.ok
      { rm with groups := rm.groups ++
          [{ name := name,
             first := if rm.entries.isEmpty then none
               else some rm.entries.length,
             last := if rm.entries.isEmpty then none
               else some rm.entries.length }] }

/-- `ResourceManager::insert`: place the entry at
`find_group_end(group)`; since the source fixes `will_realloc = true`,
the full `update_group_iterators` rescan always runs.  (The
out-of-range-group failure of `choke_base_type::at` is modelled up
front; the claims only exercise valid groups.) -/
def ResourceManager.insert (rm : ResourceManager) (e : RMEntry) :
    Except String ResourceManager :=
  if rm.groups.length ≤ e.group then
    Except.error "Choke group not found."
  else
    Except.ok (update_group_iterators
      ⟨insertAt (find_group_end rm.entries e.group) e rm.entries, rm.groups⟩)

/-- `ResourceManager::erase`, by download identity: unknown downloads
throw `internal_error`; when the vector holds a single entry, the groups
from the erased entry's group onward get null pointers (groups before it
are left untouched by the source); otherwise the erased entry's group
loses one from `last` and every later group shifts down by one. -/
def ResourceManager.erase (rm : ResourceManager) (d : Nat) :
    Except String ResourceManager :=
  match rm.entries.findIdx? (fun e => e.download == d) with
  | none => Except.error "ResourceManager::erase() itr == end()."
  | some i =>
      let gidx := (rm.entries.getD i ⟨0, 0, 0⟩).group
      let groups1 :=
        if rm.entries.length = 1 then
          rm.groups.enum.map (fun gp =>
            if gidx ≤ gp.1 then { gp.2 with first := none, last := none }
            else gp.2)
        else
          rm.groups.enum.map (fun gp =>
            if gp.1 = gidx then { gp.2 with last := ptr_dec gp.2.last }
            else if gidx < gp.1 then
              { gp.2 with first := ptr_dec gp.2.first,
                          last := ptr_dec gp.2.last }
            else gp.2)
      Except.ok { entries := rm.entries.eraseIdx i, groups := groups1 }

/-- `ResourceManager::set_group`, by download identity (the source takes
the iterator directly; callers obtain it from `find_throw`): no-op when
the group is unchanged, `input_error` on an unknown group; otherwise the
entry is erased and reinserted at the new group's end and only the
affected groups' pointers are adjusted with the source's
direction-aware arithmetic. -/
def ResourceManager.set_group (rm : ResourceManager) (d : Nat) (grp : Nat) :
    Except String ResourceManager :=
  match rm.entries.findIdx? (fun e => e.download == d) with
  | none => Except.error "Could not find download in resource manager."
  | some i =>
      let e := rm.entries.getD i ⟨0, 0, 0⟩
      if e.group = grp then Except.ok rm
      else if rm.groups.length ≤ grp then
        Except.error "Choke group not found."
      else
        let src := e.group
        let entries1 := rm.entries.eraseIdx i
        let entries2 := insertAt (find_group_end entries1 grp)
          { e with group := grp } entries1
        let groups1 :=
          if grp < src then
            rm.groups.enum.map (fun gp =>
              if gp.1 = grp then { gp.2 with last := ptr_inc gp.2.last }
              else if grp < gp.1 ∧ gp.1 < src then
                { gp.2 with first := ptr_inc gp.2.first,
                            last := ptr_inc gp.2.last }
              else if gp.1 = src then
                { gp.2 with first := ptr_inc gp.2.first }
              else gp.2)
          else
            rm.groups.enum.map (fun gp =>
              if gp.1 = src then { gp.2 with last := ptr_dec gp.2.last }
              else if src < gp.1 ∧ gp.1 < grp then
                { gp.2 with first := ptr_dec gp.2.first,
                            last := ptr_dec gp.2.last }
              else if gp.1 = grp then
                { gp.2 with first := ptr_dec gp.2.first }
              else gp.2)
        Except.ok { entries := entries2, groups := groups1 }

/-- `ResourceManager::set_priority`: the source performs no validation —
the body is exactly `itr->set_priority(pri)` — and the `uint16_t`
parameter reduces a caller's value modulo `2^16`.  The `Except` result
type records that the call raises nothing. -/
def set_priority (e : RMEntry) (pri : Nat) : Except String RMEntry :=
  Except.ok { e with priority := pri % 65536 }

/-- The mutating operations quantified over by the claims. -/
inductive RMOp where
  | push_group (name : String)
  | insert (download group priority : Nat)
  | erase (download : Nat)
  | set_group (download grp : Nat)
  deriving DecidableEq, Repr

/-- Run one operation. -/
def applyOp (rm : ResourceManager) : RMOp → Except String ResourceManager
  | RMOp.push_group n => push_group rm n
  | RMOp.insert d g p => rm.insert ⟨d, g, p⟩
  | RMOp.erase d => rm.erase d
  | RMOp.set_group d g => rm.set_group d g

/-- Run a sequence of operations from the initial empty manager. -/
def runOps (ops : List RMOp) : Except String ResourceManager :=
  ops.foldlM applyOp ⟨[], []⟩

/-- Written from the claim's words (C2): for every group `g` the entries
with `group == g` form a contiguous subsequence delimited exactly by the
group's `first`/`last`, both pointers being null exactly when the whole
entry sequence is empty. -/
def rm_invariant (rm : ResourceManager) : Bool :=
  if rm.entries.isEmpty then
    rm.groups.all (fun g => g.first == none && g.last == none)
  else
    (List.range rm.groups.length).all (fun gi =>
      match (rm.groups.getD gi ⟨"", none, none⟩).first,
          (rm.groups.getD gi ⟨"", none, none⟩).last with
      | some lo, some hi =>
          lo ≤ hi && hi ≤ rm.entries.length &&
            (List.range rm.entries.length).all (fun j =>
              decide ((rm.entries.getD j ⟨0, 0, 0⟩).group = gi) ==
                decide (lo ≤ j ∧ j < hi))
      | _, _ => false)

end Torrent

namespace Torrent

/-- C6: For every call to `SocketStream::read_stream_throws` or
`SocketStream::write_stream_throws`: a positive underlying return value is
returned as the byte count; zero raises `close_connection`; a negative
value yields 0 for a momentary-block errno, `close_connection` for a
closed-class errno, `blocked_connection` for a prolonged-congestion errno
and `connection_error(errno)` for any other errno.  The functions are a
single dispatch on one underlying result, so no internal retry occurs. -/
theorem socket_stream_classification (r : Int) (errno : Nat) :
    (0 < r →
      read_stream_throws r errno = StreamResult.bytes r.toNat ∧
      write_stream_throws r errno = StreamResult.bytes r.toNat) ∧
    (r = 0 →
      read_stream_throws r errno = StreamResult.closeConnection ∧
      write_stream_throws r errno = StreamResult.closeConnection) ∧
    (r < 0 → is_blocked_momentary errno = true →
      read_stream_throws r errno = StreamResult.bytes 0 ∧
      write_stream_throws r errno = StreamResult.bytes 0) ∧
    (r < 0 → is_closed errno = true →
      read_stream_throws r errno = StreamResult.closeConnection ∧
      write_stream_throws r errno = StreamResult.closeConnection) ∧
    (r < 0 → is_blocked_prolonged errno = true →
      read_stream_throws r errno = StreamResult.blockedConnection ∧
      write_stream_throws r errno = StreamResult.blockedConnection) ∧
    (r < 0 → is_blocked_momentary errno = false → is_closed errno = false →
        is_blocked_prolonged errno = false →
      read_stream_throws r errno = StreamResult.connectionError errno ∧
      write_stream_throws r errno = StreamResult.connectionError errno) := by
  have hdisj1 : is_closed errno = true → is_blocked_momentary errno = false := by
    simp only [is_closed, is_blocked_momentary, ECONNRESET, ECONNABORTED, EPIPE,
      EAGAIN, EWOULDBLOCK, Bool.or_eq_true, Bool.or_eq_false_iff, beq_iff_eq,
      beq_eq_false_iff_ne, ne_eq]
    omega
  have hdisj2 : is_blocked_prolonged errno = true →
      is_blocked_momentary errno = false ∧ is_closed errno = false := by
    simp only [is_blocked_prolonged, is_blocked_momentary, is_closed, ENOBUFS,
      EAGAIN, EWOULDBLOCK, ECONNRESET, ECONNABORTED, EPIPE, Bool.or_eq_true,
      Bool.or_eq_false_iff, beq_iff_eq, beq_eq_false_iff_ne, ne_eq]
    omega
  refine ⟨?_, ?_, ?_, ?_, ?_, ?_⟩
  · intro hr
    have h0 : ¬ r = 0 := by omega
    have h1 : ¬ r < 0 := by omega
    constructor <;> simp [read_stream_throws, write_stream_throws, h0, h1]
  · rintro rfl
    constructor <;> simp [read_stream_throws, write_stream_throws]
  · intro hr hm
    have h0 : ¬ r = 0 := by omega
    constructor <;> simp [read_stream_throws, write_stream_throws, h0, hr, hm]
  · intro hr hc
    have h0 : ¬ r = 0 := by omega
    have hm := hdisj1 hc
    constructor <;> simp [read_stream_throws, write_stream_throws, h0, hr, hm, hc]
  · intro hr hp
    have h0 : ¬ r = 0 := by omega
    obtain ⟨hm, hc⟩ := hdisj2 hp
    constructor <;>
      simp [read_stream_throws, write_stream_throws, h0, hr, hm, hc, hp]
  · intro hr hm hc hp
    have h0 : ¬ r = 0 := by omega
    constructor <;>
      simp [read_stream_throws, write_stream_throws, h0, hr, hm, hc, hp]

/-- Witness for C6: concrete evaluation at `r = -1` with `errno = ECONNRESET`
(the closed class), discharging the hypotheses of
`socket_stream_classification` at a concrete input. -/
theorem socket_stream_classification_witness :
    read_stream_throws (-1) 104 = StreamResult.closeConnection ∧
    write_stream_throws (-1) 104 = StreamResult.closeConnection :=
  (socket_stream_classification (-1) 104).2.2.2.1 (by decide) (by decide)

end Torrent

namespace Torrent

/-- C5: For every `DownloadInfo` (20-byte info hash and peer id, 4-byte
local address), `TrackerUdp::prepare_announce_input` succeeds — the
98-byte verification before sending never throws `internal_error` — and
the write buffer is exactly 98 bytes in network byte order laid out as:
connection_id(8) at 0, action=1(4) at 8, transaction_id(4) at 12,
info_hash(20) at 16, peer_id(20) at 36, downloaded(8) at 56, left(8) at
64, uploaded(8) at 72, event(4) at 80, ip(4) at 84, key(4) at 88,
numwant(4) at 92, port(2) at 96. -/
theorem prepare_announce_input_layout (a : AnnounceInput)
    (hhash : a.info_hash.length = 20) (hpeer : a.peer_id.length = 20)
    (hip : a.ip_bytes.length = 4) :
    ∃ buf : List Nat,
      prepare_announce_input a = Except.ok buf ∧
      buf.length = 98 ∧
      buf.take 8 = beBytes 8 a.connection_id ∧
      (buf.drop 8).take 4 = beBytes 4 1 ∧
      (buf.drop 12).take 4 = beBytes 4 a.transaction_id ∧
      (buf.drop 16).take 20 = a.info_hash ∧
      (buf.drop 36).take 20 = a.peer_id ∧
      (buf.drop 56).take 8 = beBytes 8 a.completed_adjusted ∧
      (buf.drop 64).take 8 = beBytes 8 a.download_left ∧
      (buf.drop 72).take 8 = beBytes 8 a.uploaded_adjusted ∧
      (buf.drop 80).take 4 = beBytes 4 a.send_state ∧
      (buf.drop 84).take 4 = a.ip_bytes ∧
      (buf.drop 88).take 4 = beBytes 4 a.key ∧
      (buf.drop 92).take 4 = beBytes 4 a.numwant ∧
      (buf.drop 96).take 2 = beBytes 2 a.port := by
  have l1 : (beBytes 8 a.connection_id).length = 8 := beBytes_length _ _
  have l2 : (beBytes 4 1).length = 4 := beBytes_length _ _
  have l3 : (beBytes 4 a.transaction_id).length = 4 := beBytes_length _ _
  have l6 : (beBytes 8 a.completed_adjusted).length = 8 := beBytes_length _ _
  have l7 : (beBytes 8 a.download_left).length = 8 := beBytes_length _ _
  have l8 : (beBytes 8 a.uploaded_adjusted).length = 8 := beBytes_length _ _
  have l9 : (beBytes 4 a.send_state).length = 4 := beBytes_length _ _
  have l11 : (beBytes 4 a.key).length = 4 := beBytes_length _ _
  have l12 : (beBytes 4 a.numwant).length = 4 := beBytes_length _ _
  have l13 : (beBytes 2 a.port).length = 2 := beBytes_length _ _
  set r12 := beBytes 2 a.port with hr12
  set r11 := beBytes 4 a.numwant ++ r12 with hr11
  set r10 := beBytes 4 a.key ++ r11 with hr10
  set r9 := a.ip_bytes ++ r10 with hr9
  set r8 := beBytes 4 a.send_state ++ r9 with hr8
  set r7 := beBytes 8 a.uploaded_adjusted ++ r8 with hr7
  set r6 := beBytes 8 a.download_left ++ r7 with hr6
  set r5 := beBytes 8 a.completed_adjusted ++ r6 with hr5
  set r4 := a.peer_id ++ r5 with hr4
  set r3 := a.info_hash ++ r4 with hr3
  set r2 := beBytes 4 a.transaction_id ++ r3 with hr2
  set r1 := beBytes 4 1 ++ r2 with hr1
  set buf := beBytes 8 a.connection_id ++ r1 with hbuf
  have hlen : buf.length = 98 := by
    simp only [hbuf, hr1, hr2, hr3, hr4, hr5, hr6, hr7, hr8, hr9, hr10, hr11,
      hr12, List.length_append, l1, l2, l3, l6, l7, l8, l9, l11, l12, l13,
      hhash, hpeer, hip]
  have d8 : buf.drop 8 = r1 := by
    rw [hbuf]; exact drop_append_of_length _ _ _ l1
  have d12 : buf.drop 12 = r2 := by
    rw [(by norm_num : (12 : Nat) = 8 + 4), ← List.drop_drop, d8, hr1]
    exact drop_append_of_length _ _ _ l2
  have d16 : buf.drop 16 = r3 := by
    rw [(by norm_num : (16 : Nat) = 12 + 4), ← List.drop_drop, d12, hr2]
    exact drop_append_of_length _ _ _ l3
  have d36 : buf.drop 36 = r4 := by
    rw [(by norm_num : (36 : Nat) = 16 + 20), ← List.drop_drop, d16, hr3]
    exact drop_append_of_length _ _ _ hhash
  have d56 : buf.drop 56 = r5 := by
    rw [(by norm_num : (56 : Nat) = 36 + 20), ← List.drop_drop, d36, hr4]
    exact drop_append_of_length _ _ _ hpeer
  have d64 : buf.drop 64 = r6 := by
    rw [(by norm_num : (64 : Nat) = 56 + 8), ← List.drop_drop, d56, hr5]
    exact drop_append_of_length _ _ _ l6
  have d72 : buf.drop 72 = r7 := by
    rw [(by norm_num : (72 : Nat) = 64 + 8), ← List.drop_drop, d64, hr6]
    exact drop_append_of_length _ _ _ l7
  have d80 : buf.drop 80 = r8 := by
    rw [(by norm_num : (80 : Nat) = 72 + 8), ← List.drop_drop, d72, hr7]
    exact drop_append_of_length _ _ _ l8
  have d84 : buf.drop 84 = r9 := by
    rw [(by norm_num : (84 : Nat) = 80 + 4), ← List.drop_drop, d80, hr8]
    exact drop_append_of_length _ _ _ l9
  have d88 : buf.drop 88 = r10 := by
    rw [(by norm_num : (88 : Nat) = 84 + 4), ← List.drop_drop, d84, hr9]
    exact drop_append_of_length _ _ _ hip
  have d92 : buf.drop 92 = r11 := by
    rw [(by norm_num : (92 : Nat) = 88 + 4), ← List.drop_drop, d88, hr10]
    exact drop_append_of_length _ _ _ l11
  have d96 : buf.drop 96 = r12 := by
    rw [(by norm_num : (96 : Nat) = 92 + 4), ← List.drop_drop, d92, hr11]
    exact drop_append_of_length _ _ _ l12
  refine ⟨buf, ?_, hlen, ?_, ?_, ?_, ?_, ?_, ?_, ?_, ?_, ?_, ?_, ?_, ?_, ?_⟩
  · unfold prepare_announce_input
    rw [if_neg]
    · simp only [hbuf, hr1, hr2, hr3, hr4, hr5, hr6, hr7, hr8, hr9, hr10,
        hr11, hr12, List.append_assoc]
    · rw [(by simp only [hbuf, hr1, hr2, hr3, hr4, hr5, hr6, hr7, hr8, hr9,
        hr10, hr11, hr12, List.append_assoc] :
          beBytes 8 a.connection_id ++ beBytes 4 1 ++
            beBytes 4 a.transaction_id ++ a.info_hash ++ a.peer_id ++
            beBytes 8 a.completed_adjusted ++ beBytes 8 a.download_left ++
            beBytes 8 a.uploaded_adjusted ++ beBytes 4 a.send_state ++
            a.ip_bytes ++ beBytes 4 a.key ++ beBytes 4 a.numwant ++
            beBytes 2 a.port = buf), hlen]
      exact fun h => h rfl
  · rw [hbuf]; exact take_append_of_length _ _ _ l1
  · rw [d8, hr1]; exact take_append_of_length _ _ _ l2
  · rw [d12, hr2]; exact take_append_of_length _ _ _ l3
  · rw [d16, hr3]; exact take_append_of_length _ _ _ hhash
  · rw [d36, hr4]; exact take_append_of_length _ _ _ hpeer
  · rw [d56, hr5]; exact take_append_of_length _ _ _ l6
  · rw [d64, hr6]; exact take_append_of_length _ _ _ l7
  · rw [d72, hr7]; exact take_append_of_length _ _ _ l8
  · rw [d80, hr8]; exact take_append_of_length _ _ _ l9
  · rw [d84, hr9]; exact take_append_of_length _ _ _ hip
  · rw [d88, hr10]; exact take_append_of_length _ _ _ l11
  · rw [d92, hr11]; exact take_append_of_length _ _ _ l12
  · rw [d96, hr12]; exact List.take_of_length_le (by rw [l13])

/-- Witness for C5: the spec's scenario-5 announce packet (info hash
`0x01..0x14`, peer id `0x21..0x34`, downloaded 100, left 200, uploaded 50,
event 1, wildcard ip, key `0xdeadbeef`, numwant 30, port 6881). -/
theorem prepare_announce_input_layout_witness :
    ∃ buf : List Nat,
      prepare_announce_input
        { connection_id := 4497486125440, transaction_id := 7,
          info_hash := (List.range 20).map (· + 1),
          peer_id := (List.range 20).map (· + 33),
          completed_adjusted := 100, download_left := 200,
          uploaded_adjusted := 50, send_state := 1, ip_bytes := [0, 0, 0, 0],
          key := 3735928559, numwant := 30, port := 6881 } = Except.ok buf ∧
      buf.length = 98 ∧
      buf.take 8 = beBytes 8 4497486125440 ∧
      (buf.drop 8).take 4 = beBytes 4 1 ∧
      (buf.drop 12).take 4 = beBytes 4 7 ∧
      (buf.drop 16).take 20 = (List.range 20).map (· + 1) ∧
      (buf.drop 36).take 20 = (List.range 20).map (· + 33) ∧
      (buf.drop 56).take 8 = beBytes 8 100 ∧
      (buf.drop 64).take 8 = beBytes 8 200 ∧
      (buf.drop 72).take 8 = beBytes 8 50 ∧
      (buf.drop 80).take 4 = beBytes 4 1 ∧
      (buf.drop 84).take 4 = [0, 0, 0, 0] ∧
      (buf.drop 88).take 4 = beBytes 4 3735928559 ∧
      (buf.drop 92).take 4 = beBytes 4 30 ∧
      (buf.drop 96).take 2 = beBytes 2 6881 := by
  exact prepare_announce_input_layout _ (by decide) (by decide) (by decide)

end Torrent

namespace Torrent

/-- C7: the claim fails on the code.  At a non-failure response carrying
`interval = 1800` but no `min interval` key, `process_success` executes
`set_normal_interval(default_min_interval)` in the absent-`min interval`
branch: the final `normal_interval` is `default_min_interval` (not the
response's interval value 1800) and `min_interval` keeps its previous
value 0 (not the default min interval), contradicting both halves of the
claim. -/
theorem process_success_min_interval_bug :
    process_success_state ⟨some 1800, none, none, none, none, none⟩ 0
        ⟨0, 0, "", 0, 0, 0, 0⟩ =
      ⟨default_min_interval, 0, "", 0, 0, 0, 0⟩ ∧
    ¬ (process_success_state ⟨some 1800, none, none, none, none, none⟩ 0
        ⟨0, 0, "", 0, 0, 0, 0⟩).normal_interval = 1800 ∧
    ¬ (process_success_state ⟨some 1800, none, none, none, none, none⟩ 0
        ⟨0, 0, "", 0, 0, 0, 0⟩).min_interval = default_min_interval := by
  refine ⟨rfl, by decide, by decide⟩

theorem fnr_loop_eq (ts : List Trk) (preferred : Trk) :
    fnr_loop ts preferred =
      (match ts.find? healthy with
       | none => claim_tentative preferred ts
       | some h =>
           if h.success_time_next < (claim_tentative preferred ts).failed_time_next
           then h else claim_tentative preferred ts) := by
  induction ts generalizing preferred with
  | nil => simp [fnr_loop, claim_tentative]
  | cons t ts ih =>
    by_cases hc : t.can_request_state
    · by_cases hf : t.failed_counter = 0
      · have hh : healthy t = true := by simp [healthy, hc, hf]
        simp [fnr_loop, hc, hf, List.find?_cons, hh, claim_tentative,
          List.takeWhile]
      · have hh : healthy t = false := by simp [healthy, hf]
        simp [fnr_loop, hc, hf, List.find?_cons, hh, claim_tentative,
          List.takeWhile, List.filter, ih]
    · have hh : healthy t = false := by simp [healthy, hc]
      simp [fnr_loop, hc, List.find?_cons, hh, claim_tentative,
        List.takeWhile, List.filter, ih]

/-- C8: `TrackerList::find_next_to_request` computes exactly the selection
described by the claim: the first requestable tracker when it is
non-failing; otherwise the failing requestable tracker with the smallest
`failed_time_next` among those encountered, superseded by a later
non-failing requestable tracker exactly when that tracker's
`success_time_next` is less than the tentative choice's
`failed_time_next`. -/
theorem find_next_to_request_matches_claim (l : List Trk) :
    find_next_to_request l = claim_next_to_request l := by
  induction l with
  | nil => rfl
  | cons t ts ih =>
    by_cases hc : t.can_request_state
    · by_cases hf : t.failed_counter = 0
      · simp [find_next_to_request, claim_next_to_request, hc, hf]
      · cases hfind : ts.find? healthy with
        | none =>
          simp [find_next_to_request, claim_next_to_request, hc, hf,
            fnr_loop_eq, hfind]
        | some h =>
          simp [find_next_to_request, claim_next_to_request, hc, hf,
            fnr_loop_eq, hfind]
    · simp [find_next_to_request, claim_next_to_request, hc, ih]

end Torrent

namespace Torrent

theorem find?_replace_list (ls : List BlockList) (index : Nat)
    (bl x : BlockList) (h : ls.find? (fun b => index == b.index) = some bl)
    (hx : (index == x.index) = true) :
    (replace_list ls index x).find? (fun b => index == b.index) = some x := by
  induction ls with
  | nil => simp at h
  | cons a as ih =>
    by_cases ha : (index == a.index) = true
    · show ((if (index == a.index) = true then x else a) ::
        List.map _ as).find? _ = some x
      rw [if_pos ha]
      exact List.find?_cons_of_pos _ hx
    · have h1 : as.find? (fun b => index == b.index) = some bl := by
        rwa [List.find?_cons_of_neg
          (p := fun (b : BlockList) => index == b.index) as ha] at h
      show ((if (index == a.index) = true then x else a) ::
        List.map _ as).find? _ = some x
      rw [if_neg ha, List.find?_cons_of_neg
        (p := fun (b : BlockList) => index == b.index) _ ha]
      exact ih h1

theorem find?_eraseP_none {α : Type} (p : α → Bool) (ls : List α) (a : α)
    (h : ls.find? p = some a) (hc : ls.countP p ≤ 1) :
    (ls.eraseP p).find? p = none := by
  induction ls with
  | nil => simp at h
  | cons x xs ih =>
    by_cases hx : p x = true
    · have hcx : xs.countP p = 0 := by
        rw [List.countP_cons, if_pos hx] at hc
        omega
      rw [List.eraseP_cons_of_pos hx, List.find?_eq_none]
      intro y hy
      rw [List.countP_eq_zero] at hcx
      exact hcx y hy
    · have h1 : xs.find? p = some a := by
        rwa [List.find?_cons_of_neg _ hx] at h
      have hc1 : xs.countP p ≤ 1 := by
        rw [List.countP_cons, if_neg hx] at hc
        omega
      rw [List.eraseP_cons_of_neg hx, List.find?_cons_of_neg _ hx]
      exact ih h1 hc1

theorem getLast?_dropWhile_concat {α : Type} (q : α → Bool) (l : List α)
    (a : α) (ha : q a = false) :
    ((l ++ [a]).dropWhile q).getLast? = some a := by
  induction l with
  | nil => simp [List.dropWhile, ha]
  | cons x xs ih =>
    by_cases hx : q x = true
    · simpa [List.dropWhile_cons, hx] using ih
    · rw [List.cons_append, List.dropWhile_cons, if_neg (by simp [hx]),
        show x :: (xs ++ [a]) = (x :: xs) ++ [a] from rfl,
        List.getLast?_concat]

theorem update_failed_block_entries (ch : Chunk) (b : Blk) :
    (((update_failed_block ch b).1.failed_list.getD ⟨[], 0⟩).entries).isEmpty
      = false := by
  simp only [update_failed_block]
  split
  · simp
  · next i hf =>
    have hne : (b.failed_list.getD ⟨[], 0⟩).entries ≠ [] := by
      intro hnil
      rw [hnil] at hf
      simp at hf
    simp only [Option.getD_some]
    rw [List.isEmpty_eq_false_iff_exists_mem]
    exact List.exists_mem_of_length_pos
      (by rw [List.length_set]; exact List.length_pos.mpr hne)

theorem retry_blocks_ok (bs : List Blk) (ch : Chunk)
    (h : ∀ b ∈ bs, ((b.failed_list.getD ⟨[], 0⟩).entries).isEmpty = false) :
    ∃ bs1 ch1, retry_blocks ch bs = Except.ok (bs1, ch1) := by
  induction bs generalizing ch with
  | nil => exact ⟨[], ch, rfl⟩
  | cons b bs ih =>
    have hb := h b (List.mem_cons_self b bs)
    obtain ⟨b1, ch1, hb1⟩ : ∃ b1 ch1, retry_block ch b = Except.ok (b1, ch1) := by
      cases hrb : retry_block ch b with
      | ok pr => exact ⟨pr.1, pr.2, rfl⟩
      | error e =>
        exfalso
        simp only [retry_block, hb, Bool.false_eq_true, if_false] at hrb
        split at hrb <;> simp at hrb
    obtain ⟨bs1, ch2, hrec⟩ := ih ch1 (fun x hx => h x (List.mem_cons_of_mem _ hx))
    exact ⟨b1 :: bs1, ch2, by
      simp only [retry_blocks, hb1, hrec, bind, Except.bind]⟩

/-- C1: `TransferList::hash_failed` on a present, non-empty,
fully-finished block list with `attempt == 0` always takes the retry
branch (`promoted > 0 || promoted < size` is true because `promoted = 0`
forces `promoted < size` for a non-empty list): `attempt` becomes 1,
`retry_most_popular` runs and emits exactly `on_completed(index)`, and
`do_all_failed` is not invoked. -/
theorem hash_failed_first_failure_retries (tl : TransferList) (index : Nat)
    (ch : Chunk) (bl : BlockList)
    (hfind : tl.find index = some bl)
    (hne : bl.blocks ≠ [])
    (hfin : bl.blocks.countP (fun b => b.finished) = bl.blocks.length)
    (hatt : bl.attempt = 0) :
    ∃ tl1 ch1 bl1,
      hash_failed tl index ch = Except.ok (tl1, ch1, [Event.completed index]) ∧
      tl1.find index = some bl1 ∧ bl1.attempt = 1 := by
  have hfind0 : tl.lists.find? (fun b => index == b.index) = some bl := hfind
  have hbeq : (index == bl.index) = true :=
    List.find?_some (p := fun (b : BlockList) => index == b.index) hfind0
  have hidx : index = bl.index := by simpa using hbeq
  set uf := update_failed bl ch with huf
  have hlen : uf.1.blocks.length = bl.blocks.length := by
    simp [huf, update_failed]
  have hcond : (decide (uf.2 > 0) || decide (uf.2 < uf.1.blocks.length)) = true := by
    rcases Nat.eq_zero_or_pos uf.2 with h0 | hp
    · have hpos : 0 < uf.1.blocks.length := by
        rw [hlen]
        exact List.length_pos.mpr hne
      simp [h0, hpos]
    · simp [hp]
  have hall : ∀ b ∈ uf.1.blocks,
      ((b.failed_list.getD ⟨[], 0⟩).entries).isEmpty = false := by
    intro b hb
    rw [huf] at hb
    simp only [update_failed, List.map_map, List.mem_map] at hb
    obtain ⟨b0, _, rfl⟩ := hb
    exact update_failed_block_entries ch b0
  obtain ⟨bs1, ch1, hretry⟩ := retry_blocks_ok uf.1.blocks ch hall
  have hufidx : uf.1.index = bl.index := by simp [huf, update_failed]
  have huffail : uf.1.failed = bl.failed + 1 := by simp [huf, update_failed]
  refine ⟨⟨replace_list tl.lists index ⟨bl.index, bs1, bl.failed + 1, 1⟩,
      tl.completedList, tl.succeededCount, tl.failedCount + 1⟩, ch1,
    ⟨bl.index, bs1, bl.failed + 1, 1⟩, ?_, ?_, rfl⟩
  · simp only [hash_failed, hfind]
    rw [if_neg (by simp [hfin]), if_pos hatt, ← huf, if_pos hcond]
    simp [retry_most_popular, hretry, bind, Except.bind, hufidx, huffail,
      ← hidx]
  · show (replace_list tl.lists index _).find? (fun b => index == b.index) = _
    exact find?_replace_list tl.lists index bl _ hfind0 hbeq

/-- C10: `TransferList::hash_failed` on an index that is not present
throws `internal_error` as its very first action — before the failure
counter, any block list, any failed list or any callback slot is touched,
so the transfer list is left unchanged. -/
theorem hash_failed_missing_index (tl : TransferList) (index : Nat)
    (ch : Chunk) (h : tl.find index = none) :
    hash_failed tl index ch =
      Except.error "TransferList::hash_failed(...) Could not find index." := by
  simp only [hash_failed, h]

/-- Witness for C10: the empty transfer list does not contain index 0. -/
theorem hash_failed_missing_index_witness :
    hash_failed
        { lists := [], completedList := [], succeededCount := 0,
          failedCount := 0 } 0 [] =
      Except.error "TransferList::hash_failed(...) Could not find index." :=
  hash_failed_missing_index _ 0 [] rfl

end Torrent

namespace Torrent

/-- Witness for C1: a one-block in-flight piece (index 5, all blocks
finished, attempt 0) with chunk bytes `[7]`. -/
theorem hash_failed_first_failure_retries_witness :
    ∃ tl1 ch1 bl1,
      hash_failed
          ⟨[⟨5, [⟨⟨5, 0, 1⟩, true, [⟨10, failed_index_none⟩], 0, none⟩], 0, 0⟩],
           [], 0, 0⟩ 5 [7] =
        Except.ok (tl1, ch1, [Event.completed 5]) ∧
      tl1.find 5 = some bl1 ∧ bl1.attempt = 1 :=
  hash_failed_first_failure_retries _ 5 [7]
    ⟨5, [⟨⟨5, 0, 1⟩, true, [⟨10, failed_index_none⟩], 0, none⟩], 0, 0⟩
    rfl (by decide) (by decide) rfl

theorem corrupt_injective : Function.Injective Event.corrupt := by
  intro a b h
  injection h

/-- C4: `TransferList::hash_succeeded` on a present, fully-finished block
list erases that block list, increments `m_succeededCount` by one, and
leaves `(now_microseconds, index)` as the last entry of the completed
log (the pruning never removes the entry just appended). -/
theorem hash_succeeded_erases_and_logs (tl : TransferList) (index : Nat)
    (ch : Chunk) (now : Nat) (bl : BlockList)
    (hfind : tl.find index = some bl)
    (hfin : bl.blocks.countP (fun b => b.finished) = bl.blocks.length)
    (huniq : tl.lists.countP (fun b => index == b.index) ≤ 1) :
    ∃ tl1 evs,
      hash_succeeded tl index ch now = Except.ok (tl1, evs) ∧
      tl1.find index = none ∧
      tl1.succeededCount = tl.succeededCount + 1 ∧
      tl1.completedList.getLast? = some (now, index) := by
  have hfind0 : tl.lists.find? (fun b => index == b.index) = some bl := hfind
  set completed1 := tl.completedList ++ [(now, index)] with hc1
  set completed2 :=
    if (completed1.headD (0, 0)).1 + usec_60min < now then
      completed1.dropWhile (fun v => !(now - usec_30min ≤ v.1))
    else completed1 with hc2
  set evs0 := if bl.failed ≠ 0 then mark_failed_peers bl ch else [] with he
  have hmain : hash_succeeded tl index ch now =
      Except.ok
        (⟨tl.lists.eraseP (fun b => index == b.index), completed2,
          tl.succeededCount + 1, tl.failedCount⟩, evs0) := by
    simp only [hash_succeeded, hfind]
    rw [if_neg (by simp [hfin])]
  refine ⟨_, _, hmain, ?_, rfl, ?_⟩
  · show (tl.lists.eraseP (fun b => index == b.index)).find?
      (fun b => index == b.index) = none
    exact find?_eraseP_none _ _ bl hfind0 huniq
  · show completed2.getLast? = some (now, index)
    rw [hc2]
    by_cases hp : (completed1.headD (0, 0)).1 + usec_60min < now
    · rw [if_pos hp, hc1]
      exact getLast?_dropWhile_concat _ _ _ (by simp [Nat.sub_le])
    · rw [if_neg hp, hc1, List.getLast?_concat]

/-- Witness for C4: a one-piece transfer list (index 8) with a finished
block, no prior failures, completed log `[(1, 99)]`, at time 2. -/
theorem hash_succeeded_erases_and_logs_witness :
    ∃ tl1 evs,
      hash_succeeded
          ⟨[⟨8, [⟨⟨8, 0, 1⟩, true, [], 0, none⟩], 0, 0⟩], [(1, 99)], 4, 2⟩
          8 [7] 2 =
        Except.ok (tl1, evs) ∧
      tl1.find 8 = none ∧
      tl1.succeededCount = 4 + 1 ∧
      tl1.completedList.getLast? = some (2, 8) :=
  hash_succeeded_erases_and_logs _ 8 [7] 2
    ⟨8, [⟨⟨8, 0, 1⟩, true, [], 0, none⟩], 0, 0⟩ rfl (by decide) (by decide)

/-- C3: `TransferList::hash_succeeded` on a present, fully-finished block
list whose failure counter is nonzero emits `on_corrupt(peer)` exactly
once for each distinct peer owning some transfer whose `failed_index` is
set and differs from the failed-list entry matching the now-known-good
chunk bytes of its block, and for no other peer. -/
theorem hash_succeeded_marks_failed_peers (tl : TransferList) (index : Nat)
    (ch : Chunk) (now : Nat) (bl : BlockList)
    (hfind : tl.find index = some bl)
    (hfin : bl.blocks.countP (fun b => b.finished) = bl.blocks.length)
    (hfailed : bl.failed ≠ 0)
    (hsome : ∀ b ∈ bl.blocks, b.failed_list.isSome = true) :
    ∃ tl1 evs,
      hash_succeeded tl index ch now = Except.ok (tl1, evs) ∧
      ∀ p : Nat, evs.count (Event.corrupt p) =
        if bad_peer_claim bl ch p = true then 1 else 0 := by
  set completed1 := tl.completedList ++ [(now, index)] with hc1
  set completed2 :=
    if (completed1.headD (0, 0)).1 + usec_60min < now then
      completed1.dropWhile (fun v => !(now - usec_30min ≤ v.1))
    else completed1 with hc2
  have hmain : hash_succeeded tl index ch now =
      Except.ok
        (⟨tl.lists.eraseP (fun b => index == b.index), completed2,
          tl.succeededCount + 1, tl.failedCount⟩, mark_failed_peers bl ch) := by
    simp only [hash_succeeded, hfind]
    rw [if_neg (by simp [hfin])]
    rw [if_pos hfailed]
  refine ⟨_, _, hmain, ?_⟩
  intro p
  have hmem : (p ∈ bad_peers bl ch) ↔ bad_peer_claim bl ch p = true := by
    simp only [bad_peers, bad_peer_claim, List.mem_flatMap, List.mem_filter,
      List.mem_map, List.any_eq_true, Bool.and_eq_true, beq_iff_eq,
      bne_iff_ne, ne_eq]
    aesop
  show (mark_failed_peers bl ch).count (Event.corrupt p) = _
  rw [mark_failed_peers, List.count_map_of_injective _ _ corrupt_injective,
    List.count_dedup]
  simp only [hmem]

/-- Witness for C3: one block with two recorded variants; the chunk holds
the second variant; peer 10's transfer matched variant 0 (bad), peer 20's
matched variant 1 (good), peer 30's transfer has no failed index. -/
theorem hash_succeeded_marks_failed_peers_witness :
    ∃ tl1 evs,
      hash_succeeded
          ⟨[⟨3, [⟨⟨3, 0, 1⟩, true, [⟨10, 0⟩, ⟨20, 1⟩, ⟨30, failed_index_none⟩],
              0, some ⟨[([9], 1), ([7], 2)], 0⟩⟩], 1, 1⟩], [(1, 99)], 4, 2⟩
          3 [7] 1000 =
        Except.ok (tl1, evs) ∧
      ∀ p : Nat, evs.count (Event.corrupt p) =
        if bad_peer_claim
            ⟨3, [⟨⟨3, 0, 1⟩, true, [⟨10, 0⟩, ⟨20, 1⟩, ⟨30, failed_index_none⟩],
              0, some ⟨[([9], 1), ([7], 2)], 0⟩⟩], 1, 1⟩ [7] p = true
        then 1 else 0 :=
  hash_succeeded_marks_failed_peers _ 3 [7] 1000
    ⟨3, [⟨⟨3, 0, 1⟩, true, [⟨10, 0⟩, ⟨20, 1⟩, ⟨30, failed_index_none⟩],
      0, some ⟨[([9], 1), ([7], 2)], 0⟩⟩], 1, 1⟩
    rfl (by decide) (by decide) (by decide)

end Torrent

namespace Torrent

/-- C2: the claim fails on the code.  Reachable trace: create groups "a"
and "b", insert one download into group 1, erase it again.  The erase of
the last entry only nulls the pointers of the groups at or after the
erased entry's group, so group "a" keeps `first = last = &entries[0]`
while the entry vector becomes empty — the claimed invariant (null iff
empty) is violated, and the code's own
`validate_group_iterators` (run by `receive_tick`) then throws
`internal_error` on this state. -/
theorem resource_manager_erase_to_empty_stale_pointers :
    runOps [RMOp.push_group "a", RMOp.push_group "b", RMOp.insert 0 1 0,
        RMOp.erase 0] =
      Except.ok ⟨[], [⟨"a", some 0, some 0⟩, ⟨"b", none, none⟩]⟩ ∧
    rm_invariant ⟨[], [⟨"a", some 0, some 0⟩, ⟨"b", none, none⟩]⟩ = false ∧
    validate_group_iterators
        ⟨[], [⟨"a", some 0, some 0⟩, ⟨"b", none, none⟩]⟩ = false :=
  ⟨by rfl, by decide, by decide⟩

/-- C9: the claim fails on the code: `set_priority` with the
out-of-range value 65536 raises no `input_error` — the body is a bare
`itr->set_priority(pri)` and the `uint16_t` parameter wraps, storing
priority 0. -/
theorem set_priority_out_of_range_counterexample :
    set_priority ⟨1, 2, 3⟩ 65536 = Except.ok ⟨1, 2, 0⟩ := by
  rfl

/-- C9 amended: `ResourceManager::set_priority` performs no range
validation: it always succeeds, storing the parameter reduced modulo
`2^16` — hence exactly `p` whenever `p < 65536`; no `input_error` is
raised for any `p`. -/
theorem set_priority_truncates (e : RMEntry) (p : Nat) :
    set_priority e p = Except.ok { e with priority := p % 65536 } ∧
    (p < 65536 → set_priority e p = Except.ok { e with priority := p }) := by
  refine ⟨rfl, fun h => ?_⟩
  have hm : p % 65536 = p := Nat.mod_eq_of_lt h
  simp [set_priority, hm]

/-- Witness for C9's amended statement at priority 5. -/
theorem set_priority_truncates_witness :
    set_priority ⟨0, 0, 0⟩ 5 = Except.ok ⟨0, 0, 5⟩ :=
  (set_priority_truncates ⟨0, 0, 0⟩ 5).2 (by decide)

end Torrent
